import Mathlib

/-!
Shallow embedding of the FastAPI movie-theater backend pieces relevant to the
movie-listing query composer (`cinema/routes/movies/movies.py`,
`get_movie_list`), the rating/reaction toggles
(`cinema/routes/movies/movies_ratings.py`, `movies_reactions.py`),
movie creation and partial update (`create_movie`, `update_movie`), and the
query-parameter schema (`cinema/schemas/movies.py`).

Machine integers are modelled as `Nat`/`Int`; SQL `Numeric` columns as `Rat`.
The database is modelled as a list of movie rows; many-to-many actor/director
links are modelled as the list of linked names carried on each movie row
(the names are what the search filter and the joins consume).
-/

namespace Cinema

/-- A movie row (`MovieModel` in `cinema/database/models/movies.py`), with its
many-to-many actor/director/genre/language links flattened to lists of names
and the country link to its id. -/
structure Movie where
  id : Nat
  uuid : String
  name : String
  year : Int
  duration : Int
  imdb : Rat
  imdb_votes : Int
  description : String
  budget : Rat
  revenue : Rat
  certification : String
  price : Rat
  country : Nat
  genres : List String
  actors : List String
  directors : List String
  languages : List String
deriving Repr, DecidableEq

/-- `sort_by` values admitted by `MovieQueryParamsSchema`
(`Literal["name", "price", "budget", "duration"]`, default `"name"`). -/
inductive SortBy
  | name
  | price
  | budget
  | duration
deriving Repr, DecidableEq

/-- `sort_order` values admitted by `MovieQueryParamsSchema`
(`Literal["asc", "desc"]`, default `"asc"`). -/
inductive SortOrder
  | asc
  | desc
deriving Repr, DecidableEq

/-- Pydantic validation of the `sort_by` query string
(`Literal["name", "price", "budget", "duration"]`): any other string is
rejected with a validation error, modelled as `none`. -/
def parse_sort_by (s : String) : Option SortBy :=
  if s = "name" then some SortBy.name
  else if s = "price" then some SortBy.price
  else if s = "budget" then some SortBy.budget
  else if s = "duration" then some SortBy.duration
  else none

/-- Pydantic validation of the `sort_order` query string
(`Literal["asc", "desc"]`). -/
def parse_sort_order (s : String) : Option SortOrder :=
  if s = "asc" then some SortOrder.asc
  else if s = "desc" then some SortOrder.desc
  else none

/-- `MovieQueryParamsSchema` after validation: optional search string,
optional exact year, optional minimum imdb rating, and the sort fields. -/
structure MovieQueryParamsSchema where
  search : Option String
  year : Option Int
  imdb : Option Rat
  sort_by : SortBy
  sort_order : SortOrder
deriving Repr, DecidableEq

/-- Case-insensitive character list of a string: the `ilike` comparison
lowers both sides. -/
def lowerChars (s : String) : List Char :=
  s.toList.map Char.toLower

/-- Checks that `needle` occurs at the head of `hay`. -/
def matchAt : List Char → List Char → Bool
  | [], _ => true
  | _ :: _, [] => false
  | c :: cs, d :: ds => c == d && matchAt cs ds

/-- Checks that `needle` occurs somewhere inside `hay`. -/
def containsChars (needle : List Char) : List Char → Bool
  | [] => needle.isEmpty
  | c :: cs => matchAt needle (c :: cs) || containsChars needle cs

/-- `column ILIKE "%search%"`: case-insensitive substring match. SQL wildcard
characters occurring inside the user's search string are modelled literally. -/
def ilike (hay pat : String) : Bool :=
  containsChars (lowerChars pat) (lowerChars hay)

/-- The rows produced for one movie by
`select(MovieModel.id).outerjoin(MovieModel.actors).outerjoin(MovieModel.directors)`:
a left outer join keeps the movie with a NULL partner when the link list is
empty, and multiplies rows otherwise. -/
def outerJoinNames (xs : List String) : List (Option String) :=
  match xs with
  | [] => [none]
  | _ => xs.map some

/-- The (actor name, director name) row multiset the two chained outer joins
attach to one movie. -/
def joinRows (m : Movie) : List (Option String × Option String) :=
  (outerJoinNames m.actors).flatMap
    (fun a => (outerJoinNames m.directors).map (fun d => (a, d)))

/-- The conjunction of the `where` clauses `get_movie_list` installs on the
base query, evaluated on one joined row. `if params.search:` is false for
both `None` and the empty string, so `some ""` installs no search filter.
A NULL actor/director name never matches (`ilike` on NULL is not true). -/
def rowPasses (p : MovieQueryParamsSchema) (m : Movie)
    (row : Option String × Option String) : Bool :=
  (match p.search with
   | none => true
   | some s =>
     if s = "" then true
     else
       ilike m.name s || ilike m.description s ||
       (match row.1 with
        | some a => ilike a s
        | none => false) ||
       (match row.2 with
        | some d => ilike d s
        | none => false)) &&
  (match p.year with
   | none => true
   | some y => m.year == y) &&
  (match p.imdb with
   | none => true
   | some v => v ≤ m.imdb)

/-- The movie ids of the filtered joined rowset (`base_from` after all
`where` clauses), with the multiplicity the joins produce. -/
def filteredRows (db : List Movie) (p : MovieQueryParamsSchema) : List Nat :=
  db.flatMap (fun m => ((joinRows m).filter (rowPasses p m)).map (fun _ => m.id))

/-- A movie satisfies the filters exactly when at least one of its joined
rows passes all `where` clauses. -/
def movieMatches (p : MovieQueryParamsSchema) (m : Movie) : Bool :=
  (joinRows m).any (rowPasses p m)

/-- `count()` over `base_from.distinct().subquery()`: the number of distinct
movie ids in the filtered joined rowset. -/
def total_items (db : List Movie) (p : MovieQueryParamsSchema) : Nat :=
  (filteredRows db p).dedup.length

/-- `total_pages = (total_items + per_page - 1) // per_page`. -/
def total_pages (ti per_page : Nat) : Nat :=
  (ti + per_page - 1) / per_page

/-- The sortable columns: `sort_columns = {"price": ..., "budget": ...,
"duration": ...}`. -/
inductive SortCol
  | price
  | budget
  | duration
deriving Repr, DecidableEq

/-- `sort_columns.get(params.sort_by)`: the dict holds only price, budget and
duration, so `"name"` (the schema default) maps to no sort column. -/
def sort_columns (b : SortBy) : Option SortCol :=
  match b with
  | SortBy.price => some SortCol.price
  | SortBy.budget => some SortCol.budget
  | SortBy.duration => some SortCol.duration
  | SortBy.name => none

/-- One `order_by` clause: an explicit column with a direction, or the
model-defined tie-break `MovieModel.id.desc()`. -/
inductive OrderClause
  | col : SortCol → SortOrder → OrderClause
  | idDesc : OrderClause
deriving Repr, DecidableEq

/-- `MovieModel.default_order_by()` returns `[cls.id.desc()]`. -/
def default_order_by : List OrderClause :=
  [OrderClause.idDesc]

/-- The `order_clauses` list built by `get_movie_list`: the explicit sort
column (when `sort_columns.get` finds one) in the requested direction,
followed by the model default ordering. -/
def order_clauses (p : MovieQueryParamsSchema) : List OrderClause :=
  (match sort_columns p.sort_by with
   | some c => [OrderClause.col c p.sort_order]
   | none => []) ++ default_order_by

/-- The value a sort column reads off a movie row (`duration` is an integer
column; it is compared in the same ordered universe as the numeric ones). -/
def colVal : SortCol → Movie → Rat
  | SortCol.price, m => m.price
  | SortCol.budget, m => m.budget
  | SortCol.duration, m => (m.duration : Rat)

/-- Strict comparison under one order clause. -/
def clauseLt : OrderClause → Movie → Movie → Bool
  | OrderClause.col c SortOrder.asc, a, b => decide (colVal c a < colVal c b)
  | OrderClause.col c SortOrder.desc, a, b => decide (colVal c b < colVal c a)
  | OrderClause.idDesc, a, b => decide (b.id < a.id)

/-- Equality under one order clause. -/
def clauseEq : OrderClause → Movie → Movie → Bool
  | OrderClause.col c _, a, b => decide (colVal c a = colVal c b)
  | OrderClause.idDesc, a, b => decide (a.id = b.id)

/-- Lexicographic non-strict comparison under a clause list, as SQL
`ORDER BY c1, c2, ...` orders rows. -/
def clausesLe : List OrderClause → Movie → Movie → Bool
  | [], _, _ => true
  | cl :: rest, a, b => clauseLt cl a b || (clauseEq cl a b && clausesLe rest a b)

/-- The row order `get_movie_list` requests: lexicographic under
`order_clauses`. -/
def movieLe (p : MovieQueryParamsSchema) (a b : Movie) : Prop :=
  clausesLe (order_clauses p) a b = true

instance (p : MovieQueryParamsSchema) : DecidableRel (movieLe p) :=
  fun a b => instDecidableEqBool (clausesLe (order_clauses p) a b) true

/-- `db.filter(...)`: the movies satisfying the filters. -/
def matchingMovies (db : List Movie) (p : MovieQueryParamsSchema) : List Movie :=
  db.filter (movieMatches p)

/-- Sorting the distinct filtered movies by the requested order clauses:
the denotation of `base_from.distinct().order_by(*order_clauses)`. -/
def sortMovies (p : MovieQueryParamsSchema) (ms : List Movie) : List Movie :=
  ms.insertionSort (movieLe p)

/-- The full sorted list of distinct matching movie ids (`ids_stmt` before
`offset`/`limit`). -/
def sortedIds (db : List Movie) (p : MovieQueryParamsSchema) : List Nat :=
  (sortMovies p (matchingMovies db p)).map (fun m => m.id)

/-- `ids_stmt.offset((page - 1) * per_page).limit(per_page)`: the page's
movie ids. -/
def pageIds (db : List Movie) (p : MovieQueryParamsSchema)
    (page per_page : Nat) : List Nat :=
  ((sortedIds db p).drop ((page - 1) * per_page)).take per_page

/-- Primary-key lookup of a movie row. -/
def findMovie (db : List Movie) (i : Nat) : Option Movie :=
  db.find? (fun m => m.id == i)

/-- The refetch `select(MovieModel).where(MovieModel.id.in_(movie_ids))`
re-ordered by the `case` expression mapping each id to its position in
`movie_ids`: the records come back in exactly the order of `movie_ids`. -/
def refetchMovies (db : List Movie) (ids : List Nat) : List Movie :=
  ids.filterMap (findMovie db)

/-- The two `HTTPException(status_code=404, ...)` detail messages of
`get_movie_list`. -/
inductive ListingError
  | noMoviesFound
  | pageOutOfRange
deriving Repr, DecidableEq

/-- `MovieListResponseSchema`, with prev/next links kept as the literal
strings the handler builds. -/
structure MovieListResponseSchema where
  movies : List Movie
  prev_page : Option String
  next_page : Option String
  total_pages : Nat
  total_items : Nat
deriving Repr, DecidableEq

/-- The prev/next link strings the handler interpolates. -/
def pageLink (page per_page : Nat) : String :=
  "/cinema/movies/?page=" ++ toString page ++ "&per_page=" ++ toString per_page

/-- `get_movie_list` of `cinema/routes/movies/movies.py`: count distinct
matching ids, fail on an empty result, fail on an out-of-range page, select
the page of distinct ordered ids, guard against an empty page (the safety
branch), refetch the rows in id order and emit the response. -/
def get_movie_list (db : List Movie) (page per_page : Nat)
    (p : MovieQueryParamsSchema) : Except ListingError MovieListResponseSchema :=
  if total_items db p = 0 then Except.error ListingError.noMoviesFound
  else if page > total_pages (total_items db p) per_page then
    Except.error ListingError.pageOutOfRange
  else if (pageIds db p page per_page).isEmpty then
    Except.error ListingError.noMoviesFound
  else
    Except.ok
      { movies := refetchMovies db (pageIds db p page per_page)
        prev_page := if page > 1 then some (pageLink (page - 1) per_page) else none
        next_page :=
          if page < total_pages (total_items db p) per_page then
            some (pageLink (page + 1) per_page)
          else none
        total_pages := total_pages (total_items db p) per_page
        total_items := total_items db p }

/-! ### Rating and reaction toggles -/

/-- A `RatingModel` row, keyed by the unique `(user_id, movie_id)` pair; the
value is one of `RatingTypeEnum` 1..10, modelled as a `Nat`. -/
structure RatingRow where
  user_id : Nat
  movie_id : Nat
  rating : Nat
deriving Repr, DecidableEq

/-- The key predicate `filter_by(movie_id=movie.id, user_id=user.id)`. -/
def ratingKey (uid mid : Nat) (r : RatingRow) : Bool :=
  r.movie_id == mid && r.user_id == uid

/-- `data.rating in RatingTypeEnum`: the enum holds the values 1..10. -/
def validRating (v : Nat) : Bool :=
  1 ≤ v && v ≤ 10

/-- Replaces the first list element satisfying `p` by its image under `f`:
model of mutating the single ORM object `find?` returned. -/
def updateFirst (p : α → Bool) (f : α → α) : List α → List α
  | [] => []
  | x :: xs => if p x then f x :: xs else x :: updateFirst p f xs

/-- The result a toggle reports back: the new store, the value now stored for
the key (none after a removal), and the message. -/
structure ToggleResult (α : Type) where
  store : List α
  value : Option Nat
  detail : String
deriving Repr, DecidableEq

/-- `toggle_rating` of `cinema/routes/movies/movies_ratings.py`: reject an
invalid value, then create when the `(user, movie)` rating is absent, delete
it when the stored value equals the submitted one, and overwrite it
otherwise. -/
def toggle_rating (store : List RatingRow) (uid mid v : Nat) :
    Except String (ToggleResult RatingRow) :=
  if ¬ validRating v then Except.error ("Invalid input data.")
  else
    match store.find? (ratingKey uid mid) with
    | none =>
      Except.ok
        { store := store ++ [{ user_id := uid, movie_id := mid, rating := v }]
          value := some v
          detail := "You gave this movie " ++ toString v }
    | some r =>
      if r.rating = v then
        Except.ok
          { store := store.eraseP (ratingKey uid mid)
            value := none
            detail := "Your rating was removed" }
      else
        Except.ok
          { store := updateFirst (ratingKey uid mid) (fun x => { x with rating := v }) store
            value := some v
            detail := "You gave this movie " ++ toString v }

/-- `ReactionTypeEnum`: like / dislike. -/
inductive Reaction
  | like
  | dislike
deriving Repr, DecidableEq

/-- A `MovieReactionModel` row, keyed by the unique `(user_id, movie_id)`
pair. -/
structure ReactionRow where
  user_id : Nat
  movie_id : Nat
  reaction : Reaction
deriving Repr, DecidableEq

/-- The key predicate for reactions. -/
def reactionKey (uid mid : Nat) (r : ReactionRow) : Bool :=
  r.movie_id == mid && r.user_id == uid

/-- The string the handler interpolates into its messages. -/
def reactionName : Reaction → String
  | Reaction.like => "like"
  | Reaction.dislike => "dislike"

/-- The result of a reaction toggle. -/
structure ReactionToggleResult where
  store : List ReactionRow
  value : Option Reaction
  detail : String
deriving Repr, DecidableEq

/-- `toggle_reaction` of `cinema/routes/movies/movies_reactions.py`: same
three-way toggle as `toggle_rating`; the schema already confines the value to
`ReactionTypeEnum`, so the handler's membership re-check never fires. -/
def toggle_reaction (store : List ReactionRow) (uid mid : Nat) (v : Reaction) :
    Except String ReactionToggleResult :=
  match store.find? (reactionKey uid mid) with
  | none =>
    Except.ok
      { store := store ++ [{ user_id := uid, movie_id := mid, reaction := v }]
        value := some v
        detail := "You " ++ reactionName v ++ "d this movie" }
  | some r =>
    if r.reaction = v then
      Except.ok
        { store := store.eraseP (reactionKey uid mid)
          value := none
          detail := "Your reaction was removed" }
    else
      Except.ok
        { store := updateFirst (reactionKey uid mid) (fun x => { x with reaction := v }) store
          value := some v
          detail := "You " ++ reactionName v ++ "d this movie" }

/-! ### Movie creation and partial update -/

/-- `MovieCreateSchema` payload fields used to build the new `MovieModel`
(relation names resolved separately by get-or-create). -/
structure MovieCreateSchema where
  name : String
  uuid : String
  year : Int
  duration : Int
  imdb : Rat
  imdb_votes : Int
  description : String
  budget : Rat
  revenue : Rat
  certification : String
  price : Rat
  country : Nat
  genres : List String
  actors : List String
  directors : List String
  languages : List String
deriving Repr, DecidableEq

/-- The row `create_movie` inserts, with the database-assigned autoincrement
primary key passed explicitly. -/
def mkMovie (newId : Nat) (d : MovieCreateSchema) : Movie :=
  { id := newId
    uuid := d.uuid
    name := d.name
    year := d.year
    duration := d.duration
    imdb := d.imdb
    imdb_votes := d.imdb_votes
    description := d.description
    budget := d.budget
    revenue := d.revenue
    certification := d.certification
    price := d.price
    country := d.country
    genres := d.genres
    actors := d.actors
    directors := d.directors
    languages := d.languages }

/-- The duplicate check of `create_movie`:
`select(MovieModel).where(name == data.name, year == data.year)` finds a
conflicting movie. -/
def conflictingMovie (db : List Movie) (name : String) (year : Int) : Option Movie :=
  db.find? (fun m => m.name == name && m.year == year)

/-- The 409 detail message interpolated by `create_movie`. -/
def duplicateMovieDetail (name : String) (year : Int) : String :=
  "A movie with the name \x27" ++ name ++ "\x27 and release year \x27" ++
    toString year ++ "\x27 already exists."

/-- `create_movie` of `cinema/routes/movies/movies.py`, restricted to the
movies table: reject a duplicate `(name, year)` with the 409 message, else
insert the new row. -/
def create_movie (db : List Movie) (newId : Nat) (d : MovieCreateSchema) :
    Except String (List Movie) :=
  match conflictingMovie db d.name d.year with
  | some _ => Except.error (duplicateMovieDetail d.name d.year)
  | none => Except.ok (db ++ [mkMovie newId d])

/-- `MovieUpdateSchema` (`cinema/schemas/movies.py`): the only updatable
fields, each `none` when absent from the request body
(`model_dump(exclude_unset=True)` skips it). -/
structure MovieUpdateSchema where
  name : Option String
  year : Option Int
  description : Option String
  budget : Option Rat
  revenue : Option Rat
deriving Repr, DecidableEq

/-- The `setattr` loop of `update_movie`: each provided field overwrites the
row's field; everything else is untouched. -/
def applyUpdate (u : MovieUpdateSchema) (m : Movie) : Movie :=
  { m with
    name := u.name.getD m.name
    year := u.year.getD m.year
    description := u.description.getD m.description
    budget := u.budget.getD m.budget
    revenue := u.revenue.getD m.revenue }

/-- `update_movie` of `cinema/routes/movies/movies.py`: 404 when the id is
absent, else mutate the fetched row in place. -/
def update_movie (db : List Movie) (mid : Nat) (u : MovieUpdateSchema) :
    Except String (List Movie) :=
  match db.find? (fun m => m.id == mid) with
  | none => Except.error ("Movie with the given ID was not found.")
  | some _ => Except.ok (updateFirst (fun m => m.id == mid) (applyUpdate u) db)

/-- The movie-identifier list a request observes: the ids of the returned
page on success, nothing on failure. -/
def listedIds (db : List Movie) (page per_page : Nat)
    (p : MovieQueryParamsSchema) : List Nat :=
  match get_movie_list db page per_page p with
  | Except.ok r => r.movies.map (fun m => m.id)
  | Except.error _ => []

/-! ### Concrete sample data used by the witness instances -/

/-- A sample movie row. -/
def mkSample (i : Nat) (nm : String) (yr : Int) (pr : Rat)
    (acts dirs : List String) : Movie :=
  { id := i
    uuid := toString i
    name := nm
    year := yr
    duration := 100 + i
    imdb := 7
    imdb_votes := 1000
    description := "a film"
    budget := 50
    revenue := 80
    certification := "PG"
    price := pr
    country := 1
    genres := ["Drama"]
    actors := acts
    directors := dirs
    languages := ["English"] }

/-- Three sample rows; two share an actor, one has two actors (so the joins
multiply rows). -/
def sampleDb : List Movie :=
  [mkSample 1 "Alpha" 2020 5 ["Tom Hanks"] ["Jane Doe"],
   mkSample 2 "Beta" 2021 3 ["Tom Hanks", "Ann Lee"] [],
   mkSample 3 "Gamma" 2020 4 [] ["Jane Doe"]]

/-- Query parameters with no filters and the schema defaults
(`sort_by="name"`, `sort_order="asc"`). -/
def sampleParams : MovieQueryParamsSchema :=
  { search := none
    year := none
    imdb := none
    sort_by := SortBy.name
    sort_order := SortOrder.asc }

/-- Query parameters requesting an explicit price sort. -/
def samplePriceParams : MovieQueryParamsSchema :=
  { search := none
    year := none
    imdb := none
    sort_by := SortBy.price
    sort_order := SortOrder.asc }

/-- A sample creation payload colliding with `sampleDb` on (name, year). -/
def sampleCreate : MovieCreateSchema :=
  { name := "Alpha"
    uuid := "u-4"
    year := 2020
    duration := 90
    imdb := 6
    imdb_votes := 10
    description := "remake"
    budget := 1
    revenue := 2
    certification := "G"
    price := 10
    country := 1
    genres := []
    actors := []
    directors := []
    languages := [] }

/-- A sample creation payload free of conflicts with `sampleDb`. -/
def sampleCreateNew : MovieCreateSchema :=
  { name := "Delta"
    uuid := "u-5"
    year := 2022
    duration := 95
    imdb := 8
    imdb_votes := 20
    description := "new"
    budget := 3
    revenue := 4
    certification := "R"
    price := 12
    country := 2
    genres := ["Action"]
    actors := ["Bob Fox"]
    directors := []
    languages := [] }

/-- A sample partial update touching only the name and budget. -/
def sampleUpdate : MovieUpdateSchema :=
  { name := some "Alpha Redux"
    year := none
    description := none
    budget := some 60
    revenue := none }

/-- The store `update_movie sampleDb 1 sampleUpdate` produces. -/
def sampleUpdatedDb : List Movie :=
  [{ mkSample 1 "Alpha" 2020 5 ["Tom Hanks"] ["Jane Doe"] with
      name := "Alpha Redux", budget := 60 },
   mkSample 2 "Beta" 2021 3 ["Tom Hanks", "Ann Lee"] [],
   mkSample 3 "Gamma" 2020 4 [] ["Jane Doe"]]

/-- The response `get_movie_list sampleDb 1 2 sampleParams` produces:
page 1 of the id-descending order [3, 2, 1]. -/
def sampleResponsePage1 : MovieListResponseSchema :=
  { movies := [mkSample 3 "Gamma" 2020 4 [] ["Jane Doe"],
               mkSample 2 "Beta" 2021 3 ["Tom Hanks", "Ann Lee"] []]
    prev_page := none
    next_page := some (pageLink 2 2)
    total_pages := 2
    total_items := 3 }

/-- The response `get_movie_list sampleDb 2 2 sampleParams` produces:
the final short page. -/
def sampleResponsePage2 : MovieListResponseSchema :=
  { movies := [mkSample 1 "Alpha" 2020 5 ["Tom Hanks"] ["Jane Doe"]]
    prev_page := some (pageLink 1 2)
    next_page := none
    total_pages := 2
    total_items := 3 }

/-! ### Properties of the order-clause semantics -/

theorem clause_trichotomy (cl : OrderClause) (a b : Movie) :
    clauseLt cl a b = true ∨ clauseEq cl a b = true ∨ clauseLt cl b a = true := by
  cases cl with
  | idDesc =>
    simp only [clauseLt, clauseEq, decide_eq_true_eq]
    omega
  | col c o =>
    cases o <;> simp only [clauseLt, clauseEq, decide_eq_true_eq] <;>
      rcases lt_trichotomy (colVal c a) (colVal c b) with h | h | h <;> tauto

theorem clauseEq_symm (cl : OrderClause) (a b : Movie)
    (h : clauseEq cl a b = true) : clauseEq cl b a = true := by
  cases cl <;> simp only [clauseEq, decide_eq_true_eq] at h ⊢ <;> exact h.symm

theorem clauseEq_trans (cl : OrderClause) (a b c : Movie)
    (h₁ : clauseEq cl a b = true) (h₂ : clauseEq cl b c = true) :
    clauseEq cl a c = true := by
  cases cl <;> simp only [clauseEq, decide_eq_true_eq] at h₁ h₂ ⊢ <;> exact h₁.trans h₂

theorem clauseLt_trans (cl : OrderClause) (a b c : Movie)
    (h₁ : clauseLt cl a b = true) (h₂ : clauseLt cl b c = true) :
    clauseLt cl a c = true := by
  cases cl with
  | idDesc =>
    simp only [clauseLt, decide_eq_true_eq] at h₁ h₂ ⊢
    omega
  | col co o =>
    cases o <;> simp only [clauseLt, decide_eq_true_eq] at h₁ h₂ ⊢
    · exact h₁.trans h₂
    · exact h₂.trans h₁

theorem clauseLt_of_lt_of_eq (cl : OrderClause) (a b c : Movie)
    (h₁ : clauseLt cl a b = true) (h₂ : clauseEq cl b c = true) :
    clauseLt cl a c = true := by
  cases cl with
  | idDesc =>
    simp only [clauseLt, clauseEq, decide_eq_true_eq] at h₁ h₂ ⊢
    omega
  | col co o =>
    cases o <;> simp only [clauseLt, clauseEq, decide_eq_true_eq] at h₁ h₂ ⊢
    · exact h₂ ▸ h₁
    · exact lt_of_le_of_lt h₂.symm.le h₁

theorem clauseLt_of_eq_of_lt (cl : OrderClause) (a b c : Movie)
    (h₁ : clauseEq cl a b = true) (h₂ : clauseLt cl b c = true) :
    clauseLt cl a c = true := by
  cases cl with
  | idDesc =>
    simp only [clauseLt, clauseEq, decide_eq_true_eq] at h₁ h₂ ⊢
    omega
  | col co o =>
    cases o <;> simp only [clauseLt, clauseEq, decide_eq_true_eq] at h₁ h₂ ⊢
    · exact h₁ ▸ h₂
    · exact lt_of_lt_of_le h₂ h₁.symm.le

theorem clauseLt_excl (cl : OrderClause) (a b : Movie)
    (h : clauseLt cl a b = true) :
    clauseEq cl a b = false ∧ clauseLt cl b a = false := by
  cases cl with
  | idDesc =>
    simp only [clauseLt, clauseEq, decide_eq_true_eq, decide_eq_false_iff_not] at h ⊢
    omega
  | col co o =>
    cases o <;>
      simp only [clauseLt, clauseEq, decide_eq_true_eq, decide_eq_false_iff_not] at h ⊢ <;>
      exact ⟨by intro he; exact absurd h (by simp [he]), not_lt_of_lt h⟩

theorem clausesLe_total : ∀ (L : List OrderClause) (a b : Movie),
    clausesLe L a b = true ∨ clausesLe L b a = true
  | [], _, _ => Or.inl rfl
  | cl :: rest, a, b => by
    rcases clause_trichotomy cl a b with h | h | h
    · exact Or.inl (by simp [clausesLe, h])
    · rcases clausesLe_total rest a b with hr | hr
      · exact Or.inl (by simp [clausesLe, h, hr])
      · exact Or.inr (by simp [clausesLe, clauseEq_symm cl a b h, hr])
    · exact Or.inr (by simp [clausesLe, h])

theorem clausesLe_trans : ∀ (L : List OrderClause) (a b c : Movie),
    clausesLe L a b = true → clausesLe L b c = true → clausesLe L a c = true
  | [], _, _, _, _, _ => rfl
  | cl :: rest, a, b, c, hab, hbc => by
    simp only [clausesLe, Bool.or_eq_true, Bool.and_eq_true] at hab hbc ⊢
    rcases hab with hab | ⟨habe, habr⟩
    · rcases hbc with hbc | ⟨hbce, _⟩
      · exact Or.inl (clauseLt_trans cl a b c hab hbc)
      · exact Or.inl (clauseLt_of_lt_of_eq cl a b c hab hbce)
    · rcases hbc with hbc | ⟨hbce, hbcr⟩
      · exact Or.inl (clauseLt_of_eq_of_lt cl a b c habe hbc)
      · exact Or.inr ⟨clauseEq_trans cl a b c habe hbce,
          clausesLe_trans rest a b c habr hbcr⟩

theorem clausesLe_antisymm : ∀ (L : List OrderClause) (a b : Movie),
    clausesLe L a b = true → clausesLe L b a = true →
    ∀ cl ∈ L, clauseEq cl a b = true
  | [], _, _, _, _, _, hcl => absurd hcl (List.not_mem_nil _)
  | cl :: rest, a, b, hab, hba, cl', hcl' => by
    simp only [clausesLe, Bool.or_eq_true, Bool.and_eq_true] at hab hba
    rcases hab with hab | ⟨habe, habr⟩
    · rcases hba with hba | ⟨hbae, _⟩
      · exact absurd hba (by simp [(clauseLt_excl cl a b hab).2])
      · exact absurd (clauseEq_symm cl b a hbae) (by simp [(clauseLt_excl cl a b hab).1])
    · rcases hba with hba | ⟨_, hbar⟩
      · exact absurd (clauseEq_symm cl a b habe) (by simp [(clauseLt_excl cl b a hba).1])
      · rcases List.mem_cons.mp hcl' with h | h
        · exact h ▸ habe
        · exact clausesLe_antisymm rest a b habr hbar cl' h

instance (p : MovieQueryParamsSchema) : IsTotal Movie (movieLe p) :=
  ⟨fun a b => clausesLe_total (order_clauses p) a b⟩

instance (p : MovieQueryParamsSchema) : IsTrans Movie (movieLe p) :=
  ⟨fun a b c => clausesLe_trans (order_clauses p) a b c⟩

theorem idDesc_mem_order_clauses (p : MovieQueryParamsSchema) :
    OrderClause.idDesc ∈ order_clauses p := by
  unfold order_clauses default_order_by
  cases sort_columns p.sort_by <;> simp

/-- The appended tie-break makes the requested ordering antisymmetric on ids:
two rows each at-most the other agree on the id column. -/
theorem movieLe_antisymm_id (p : MovieQueryParamsSchema) (a b : Movie)
    (hab : movieLe p a b) (hba : movieLe p b a) : a.id = b.id := by
  have h := clausesLe_antisymm (order_clauses p) a b hab hba
    OrderClause.idDesc (idDesc_mem_order_clauses p)
  simpa [clauseEq] using h

theorem sortMovies_perm (p : MovieQueryParamsSchema) (ms : List Movie) :
    List.Perm (sortMovies p ms) ms :=
  List.perm_insertionSort (movieLe p) ms

theorem sortMovies_sorted (p : MovieQueryParamsSchema) (ms : List Movie) :
    List.Sorted (movieLe p) (sortMovies p ms) :=
  List.sorted_insertionSort (movieLe p) ms

/-! ### Distinct counting over the joined rowset -/

theorem mem_filteredRows (db : List Movie) (p : MovieQueryParamsSchema) (i : Nat) :
    i ∈ filteredRows db p ↔
      ∃ m, m ∈ db ∧ movieMatches p m = true ∧ m.id = i := by
  simp only [filteredRows, movieMatches, List.mem_flatMap, List.mem_map,
    List.mem_filter, List.any_eq_true]
  constructor
  · rintro ⟨m, hm, row, ⟨hrow, hpass⟩, hid⟩
    exact ⟨m, hm, ⟨row, hrow, hpass⟩, hid⟩
  · rintro ⟨m, hm, ⟨row, hrow, hpass⟩, hid⟩
    exact ⟨m, hm, row, ⟨hrow, hpass⟩, hid⟩

theorem mem_matching_ids (db : List Movie) (p : MovieQueryParamsSchema) (i : Nat) :
    i ∈ (matchingMovies db p).map (fun m => m.id) ↔
      ∃ m, m ∈ db ∧ movieMatches p m = true ∧ m.id = i := by
  simp only [matchingMovies, List.mem_map, List.mem_filter]
  constructor
  · rintro ⟨m, ⟨hm, hmt⟩, hid⟩
    exact ⟨m, hm, hmt, hid⟩
  · rintro ⟨m, hm, hmt, hid⟩
    exact ⟨m, ⟨hm, hmt⟩, hid⟩

theorem nodup_matching_ids {db : List Movie} (p : MovieQueryParamsSchema)
    (hnd : (db.map (fun m => m.id)).Nodup) :
    ((matchingMovies db p).map (fun m => m.id)).Nodup :=
  hnd.sublist ((List.filter_sublist db).map (fun m => m.id))

/-- The distinct count over the joined rowset equals the number of movies
satisfying the filters: the join multiplicity never inflates `total_items`. -/
theorem total_items_eq {db : List Movie} (p : MovieQueryParamsSchema)
    (hnd : (db.map (fun m => m.id)).Nodup) :
    total_items db p = (matchingMovies db p).length := by
  have h1 : (filteredRows db p).dedup.Nodup := List.nodup_dedup _
  have h2 := nodup_matching_ids p hnd
  have hperm : List.Perm (filteredRows db p).dedup
      ((matchingMovies db p).map (fun m => m.id)) :=
    (List.perm_ext_iff_of_nodup h1 h2).mpr (fun a => by
      rw [List.mem_dedup, mem_filteredRows, mem_matching_ids])
  calc total_items db p = (filteredRows db p).dedup.length := rfl
    _ = ((matchingMovies db p).map (fun m => m.id)).length := hperm.length_eq
    _ = (matchingMovies db p).length := List.length_map ..

theorem sortedIds_perm (db : List Movie) (p : MovieQueryParamsSchema) :
    List.Perm (sortedIds db p) ((matchingMovies db p).map (fun m => m.id)) := by
  unfold sortedIds
  exact (sortMovies_perm p (matchingMovies db p)).map (fun m => m.id)

theorem sortedIds_nodup {db : List Movie} (p : MovieQueryParamsSchema)
    (hnd : (db.map (fun m => m.id)).Nodup) : (sortedIds db p).Nodup :=
  ((sortedIds_perm db p).nodup_iff).mpr (nodup_matching_ids p hnd)

theorem sortedIds_length {db : List Movie} (p : MovieQueryParamsSchema)
    (hnd : (db.map (fun m => m.id)).Nodup) :
    (sortedIds db p).length = total_items db p := by
  rw [(sortedIds_perm db p).length_eq, List.length_map, total_items_eq p hnd]

theorem sortedIds_mem_db (db : List Movie) (p : MovieQueryParamsSchema) :
    ∀ i ∈ sortedIds db p, i ∈ db.map (fun m => m.id) := by
  intro i hi
  obtain ⟨m, hm, _, hid⟩ :=
    (mem_matching_ids db p i).mp ((sortedIds_perm db p).mem_iff.mp hi)
  exact List.mem_map.mpr ⟨m, hm, hid⟩

/-! ### The refetch-by-id step -/

/-- Re-fetching the page's rows and re-imposing the id order returns exactly
the rows of `ids`, in order: the mapped-back id list is `ids` itself. -/
theorem refetch_map_id (db : List Movie) :
    ∀ ids : List Nat, (∀ i ∈ ids, i ∈ db.map (fun m => m.id)) →
    (refetchMovies db ids).map (fun m => m.id) = ids
  | [], _ => rfl
  | i :: ids, h => by
    have hi : i ∈ db.map (fun m => m.id) := h i (List.mem_cons_self i ids)
    obtain ⟨m, hm, hmi⟩ := List.mem_map.mp hi
    have hsome : (db.find? (fun m => m.id == i)).isSome :=
      List.find?_isSome.mpr ⟨m, hm, by simp [hmi]⟩
    obtain ⟨m', hm'⟩ := Option.isSome_iff_exists.mp hsome
    have hid : m'.id = i := by simpa using List.find?_some hm'
    have hrest := refetch_map_id db ids (fun j hj => h j (List.mem_cons_of_mem _ hj))
    have hfm : findMovie db i = some m' := hm'
    simp only [refetchMovies] at hrest ⊢
    rw [List.filterMap_cons_some hfm, List.map_cons, hid, hrest]

/-! ### Offset/limit chunks of the ordered id list -/

theorem chunk_eq_drop_take (l : List Nat) (n pp : Nat) :
    (l.drop n).take pp = (l.take (n + pp)).drop n := by
  rw [List.drop_take]
  congr 1
  omega

theorem chunks_disjoint {l : List Nat} (hnd : l.Nodup) (pp : Nat) {i j : Nat}
    (hij : i < j) :
    ∀ x ∈ (l.drop (i * pp)).take pp, x ∉ (l.drop (j * pp)).take pp := by
  intro x hxi hxj
  have hxi' : x ∈ l.take (i * pp + pp) := by
    rw [chunk_eq_drop_take] at hxi
    exact List.mem_of_mem_drop hxi
  have hij' : i * pp + pp ≤ j * pp := by
    have h1 : i + 1 ≤ j := hij
    calc i * pp + pp = (i + 1) * pp := by ring
      _ ≤ j * pp := Nat.mul_le_mul_right pp h1
  have hxj' : x ∈ l.drop (i * pp + pp) := by
    have h1 : x ∈ l.drop (j * pp) := List.mem_of_mem_take hxj
    have h2 : j * pp = (i * pp + pp) + (j * pp - (i * pp + pp)) := by omega
    rw [h2, ← List.drop_drop] at h1
    exact List.mem_of_mem_drop h1
  have hsplit : l = l.take (i * pp + pp) ++ l.drop (i * pp + pp) :=
    (List.take_append_drop (i * pp + pp) l).symm
  exact (List.nodup_append.mp (hsplit ▸ hnd)).2.2 hxi' hxj'

theorem chunks_concat_take (l : List Nat) (pp : Nat) :
    ∀ n, (List.range n).flatMap (fun k => (l.drop (k * pp)).take pp) =
      l.take (n * pp)
  | 0 => by simp
  | n + 1 => by
    rw [List.range_succ, List.flatMap_append, chunks_concat_take l pp n]
    simp only [List.flatMap_cons, List.flatMap_nil, List.append_nil]
    rw [Nat.succ_mul, List.take_add]

theorem chunks_concat (l : List Nat) (pp n : Nat) (h : l.length ≤ n * pp) :
    (List.range n).flatMap (fun k => (l.drop (k * pp)).take pp) = l := by
  rw [chunks_concat_take, List.take_of_length_le h]

/-! ### Page arithmetic -/

theorem offset_lt_total {page pp ti : Nat} (hpp : 1 ≤ pp)
    (hti : ti ≠ 0) (hle : page ≤ total_pages ti pp) : (page - 1) * pp < ti := by
  have h1 : page * pp ≤ ti + pp - 1 :=
    (Nat.le_div_iff_mul_le (by omega)).mp hle
  have h2 : (page - 1) * pp = page * pp - pp := by
    rw [Nat.sub_mul, one_mul]
  omega

theorem total_le_total_pages_mul {ti pp : Nat} (hpp : 1 ≤ pp) :
    ti ≤ total_pages ti pp * pp := by
  have h := Nat.div_add_mod (ti + pp - 1) pp
  have hlt : (ti + pp - 1) % pp < pp := Nat.mod_lt _ (by omega)
  have hc : total_pages ti pp * pp = pp * ((ti + pp - 1) / pp) :=
    Nat.mul_comm _ _
  omega

theorem pageIds_length {db : List Movie} (p : MovieQueryParamsSchema)
    (page pp : Nat) (hnd : (db.map (fun m => m.id)).Nodup) :
    (pageIds db p page pp).length =
      min pp (total_items db p - (page - 1) * pp) := by
  simp [pageIds, List.length_take, List.length_drop, sortedIds_length p hnd]

theorem pageIds_ne_nil {db : List Movie} (p : MovieQueryParamsSchema)
    {page pp : Nat} (hnd : (db.map (fun m => m.id)).Nodup) (hpp : 1 ≤ pp)
    (hti : total_items db p ≠ 0)
    (hle : page ≤ total_pages (total_items db p) pp) :
    pageIds db p page pp ≠ [] := by
  have hlen := pageIds_length p page pp hnd
  have hofs := offset_lt_total hpp hti hle
  intro hnil
  rw [hnil] at hlen
  simp only [List.length_nil, Nat.min_def] at hlen
  split_ifs at hlen <;> omega

/-! ### Characterizations of the handler result -/

theorem get_movie_list_ok_iff (db : List Movie) (page pp : Nat)
    (p : MovieQueryParamsSchema) (r : MovieListResponseSchema) :
    get_movie_list db page pp p = Except.ok r ↔
      total_items db p ≠ 0 ∧ page ≤ total_pages (total_items db p) pp ∧
      pageIds db p page pp ≠ [] ∧
      r = { movies := refetchMovies db (pageIds db p page pp)
            prev_page := if page > 1 then some (pageLink (page - 1) pp) else none
            next_page :=
              if page < total_pages (total_items db p) pp then
                some (pageLink (page + 1) pp)
              else none
            total_pages := total_pages (total_items db p) pp
            total_items := total_items db p } := by
  constructor
  · intro h
    unfold get_movie_list at h
    by_cases c1 : total_items db p = 0
    · rw [if_pos c1] at h
      exact Except.noConfusion h
    rw [if_neg c1] at h
    by_cases c2 : page > total_pages (total_items db p) pp
    · rw [if_pos c2] at h
      exact Except.noConfusion h
    rw [if_neg c2] at h
    by_cases c3 : (pageIds db p page pp).isEmpty = true
    · rw [if_pos c3] at h
      exact Except.noConfusion h
    rw [if_neg c3] at h
    refine ⟨c1, Nat.not_lt.mp c2, ?_, (Except.ok.inj h).symm⟩
    intro hnil
    exact c3 (by rw [hnil]; rfl)
  · rintro ⟨h1, h2, h3, rfl⟩
    unfold get_movie_list
    rw [if_neg h1, if_neg (Nat.not_lt.mpr h2),
      if_neg (fun he => h3 (List.isEmpty_iff.mp he))]

theorem get_movie_list_noMovies_iff (db : List Movie) (page pp : Nat)
    (p : MovieQueryParamsSchema) :
    get_movie_list db page pp p = Except.error ListingError.noMoviesFound ↔
      total_items db p = 0 ∨
        (total_items db p ≠ 0 ∧ page ≤ total_pages (total_items db p) pp ∧
          pageIds db p page pp = []) := by
  unfold get_movie_list
  by_cases c1 : total_items db p = 0
  · rw [if_pos c1]
    simp [c1]
  rw [if_neg c1]
  by_cases c2 : page > total_pages (total_items db p) pp
  · rw [if_pos c2]
    simp only [c1, false_or]
    constructor
    · intro h
      exact absurd (Except.error.inj h) (by intro he; exact ListingError.noConfusion he)
    · rintro ⟨-, h2, -⟩
      omega
  rw [if_neg c2]
  by_cases c3 : (pageIds db p page pp).isEmpty = true
  · rw [if_pos c3]
    have h3 : pageIds db p page pp = [] := List.isEmpty_iff.mp c3
    simp [c1, h3, Nat.not_lt.mp c2]
  · rw [if_neg c3]
    have h3 : pageIds db p page pp ≠ [] :=
      fun hnil => c3 (by rw [hnil]; rfl)
    simp [c1, h3]

theorem get_movie_list_outOfRange_iff (db : List Movie) (page pp : Nat)
    (p : MovieQueryParamsSchema) :
    get_movie_list db page pp p = Except.error ListingError.pageOutOfRange ↔
      total_items db p ≠ 0 ∧ page > total_pages (total_items db p) pp := by
  unfold get_movie_list
  by_cases c1 : total_items db p = 0
  · rw [if_pos c1]
    constructor
    · intro h
      exact absurd (Except.error.inj h) (by intro he; exact ListingError.noConfusion he)
    · rintro ⟨h1, -⟩
      exact absurd c1 h1
  rw [if_neg c1]
  by_cases c2 : page > total_pages (total_items db p) pp
  · rw [if_pos c2]
    simp [c1, c2]
  rw [if_neg c2]
  by_cases c3 : (pageIds db p page pp).isEmpty = true
  · rw [if_pos c3]
    constructor
    · intro h
      exact absurd (Except.error.inj h) (by intro he; exact ListingError.noConfusion he)
    · rintro ⟨-, h2⟩
      exact absurd h2 c2
  · rw [if_neg c3]
    constructor
    · intro h
      exact Except.noConfusion h
    · rintro ⟨-, h2⟩
      exact absurd h2 c2

/-! ### Claim theorems: pagination metadata and failure modes -/

theorem total_pages_eq_ceil {ti pp : Nat} (hpp : 1 ≤ pp) :
    total_pages ti pp = Nat.ceil ((ti : ℚ) / (pp : ℚ)) := by
  have hpp' : (0 : ℚ) < (pp : ℚ) := by
    exact_mod_cast Nat.lt_of_lt_of_le Nat.zero_lt_one hpp
  apply le_antisymm
  · have hceil : (ti : ℚ) ≤ (Nat.ceil ((ti : ℚ) / (pp : ℚ)) : ℚ) * (pp : ℚ) :=
      (div_le_iff₀ hpp').mp (Nat.le_ceil _)
    have hticeil : ti ≤ Nat.ceil ((ti : ℚ) / (pp : ℚ)) * pp := by
      exact_mod_cast hceil
    have hexp : (Nat.ceil ((ti : ℚ) / (pp : ℚ)) + 1) * pp
        = Nat.ceil ((ti : ℚ) / (pp : ℚ)) * pp + pp := by ring
    have hlt : ti + pp - 1 < (Nat.ceil ((ti : ℚ) / (pp : ℚ)) + 1) * pp := by
      omega
    exact Nat.lt_succ_iff.mp ((Nat.div_lt_iff_lt_mul (by omega)).mpr hlt)
  · rw [Nat.ceil_le, div_le_iff₀ hpp']
    exact_mod_cast total_le_total_pages_mul hpp

/-- Claim C3: on every successful movie-listing response, `total_pages` is
the mathematical ceiling of `total_items / per_page`, `prev_page` is null
exactly on the first page, and `next_page` is null exactly on the last
page. -/
theorem movie_list_metadata (db : List Movie) (page pp : Nat)
    (p : MovieQueryParamsSchema) (r : MovieListResponseSchema)
    (hpage : 1 ≤ page) (hpp : 1 ≤ pp)
    (hok : get_movie_list db page pp p = Except.ok r) :
    r.total_pages = Nat.ceil ((r.total_items : ℚ) / (pp : ℚ)) ∧
    (r.prev_page = none ↔ page = 1) ∧
    (r.next_page = none ↔ page = r.total_pages) := by
  obtain ⟨h1, h2, h3, rfl⟩ := (get_movie_list_ok_iff db page pp p r).mp hok
  refine ⟨total_pages_eq_ceil hpp, ?_, ?_⟩
  · by_cases h : page > 1
    · simp only [if_pos h]
      constructor
      · intro hc
        exact Option.noConfusion hc
      · intro hc
        omega
    · simp only [if_neg h]
      constructor
      · intro _
        omega
      · intro _
        trivial
  · by_cases h : page < total_pages (total_items db p) pp
    · simp only [if_pos h]
      constructor
      · intro hc
        exact Option.noConfusion hc
      · intro hc
        simp only [hc] at h
        omega
    · simp only [if_neg h]
      constructor
      · intro _
        omega
      · intro _
        trivial

theorem movie_list_metadata_witness :
    sampleResponsePage1.total_pages =
      Nat.ceil ((sampleResponsePage1.total_items : ℚ) / ((2 : Nat) : ℚ)) ∧
    (sampleResponsePage1.prev_page = none ↔ (1 : Nat) = 1) ∧
    (sampleResponsePage1.next_page = none ↔
      (1 : Nat) = sampleResponsePage1.total_pages) :=
  movie_list_metadata sampleDb 1 2 sampleParams sampleResponsePage1
    (by decide) (by decide) (by rfl)

/-- Membership of a page id in the database id column. -/
theorem pageIds_mem_db (db : List Movie) (p : MovieQueryParamsSchema)
    (page pp : Nat) : ∀ i ∈ pageIds db p page pp, i ∈ db.map (fun m => m.id) := by
  intro i hi
  exact sortedIds_mem_db db p i
    (List.mem_of_mem_drop (List.mem_of_mem_take hi))

/-- Claim C2: every successful page holds exactly
`min per_page (total_items - (page-1)*per_page)` movies. -/
theorem movie_list_page_size (db : List Movie) (page pp : Nat)
    (p : MovieQueryParamsSchema) (r : MovieListResponseSchema)
    (hpage : 1 ≤ page) (hpp1 : 1 ≤ pp) (hpp20 : pp ≤ 20)
    (hnd : (db.map (fun m => m.id)).Nodup)
    (hok : get_movie_list db page pp p = Except.ok r) :
    r.movies.length = min pp (total_items db p - (page - 1) * pp) := by
  obtain ⟨h1, h2, h3, rfl⟩ := (get_movie_list_ok_iff db page pp p r).mp hok
  have hmap := refetch_map_id db (pageIds db p page pp)
    (pageIds_mem_db db p page pp)
  calc (refetchMovies db (pageIds db p page pp)).length
      = ((refetchMovies db (pageIds db p page pp)).map (fun m => m.id)).length :=
        (List.length_map _ _).symm
    _ = (pageIds db p page pp).length := by rw [hmap]
    _ = min pp (total_items db p - (page - 1) * pp) :=
        pageIds_length p page pp hnd

theorem movie_list_page_size_witness :
    sampleResponsePage2.movies.length =
      min 2 (total_items sampleDb sampleParams - (2 - 1) * 2) :=
  movie_list_page_size sampleDb 2 2 sampleParams sampleResponsePage2
    (by decide) (by decide) (by decide) (by decide) (by rfl)

/-- Claim C4: the "No movies found." failure occurs exactly when the
distinct match count is zero; otherwise "Page out of range." occurs exactly
when the page exceeds `total_pages`; and an out-of-range page never yields a
successful response. -/
theorem movie_list_failures (db : List Movie) (page pp : Nat)
    (p : MovieQueryParamsSchema)
    (hpage : 1 ≤ page) (hpp : 1 ≤ pp)
    (hnd : (db.map (fun m => m.id)).Nodup) :
    (get_movie_list db page pp p = Except.error ListingError.noMoviesFound ↔
      total_items db p = 0) ∧
    (get_movie_list db page pp p = Except.error ListingError.pageOutOfRange ↔
      (total_items db p ≠ 0 ∧ page > total_pages (total_items db p) pp)) ∧
    (page > total_pages (total_items db p) pp →
      ∀ r, get_movie_list db page pp p ≠ Except.ok r) := by
  refine ⟨?_, get_movie_list_outOfRange_iff db page pp p, ?_⟩
  · rw [get_movie_list_noMovies_iff]
    constructor
    · rintro (h | ⟨hti, hle, hnil⟩)
      · exact h
      · exact absurd hnil (pageIds_ne_nil p hnd hpp hti hle)
    · exact Or.inl
  · intro hgt r hok
    obtain ⟨-, hle, -, -⟩ := (get_movie_list_ok_iff db page pp p r).mp hok
    omega

theorem movie_list_failures_witness :
    (get_movie_list sampleDb 3 2 sampleParams =
        Except.error ListingError.noMoviesFound ↔
      total_items sampleDb sampleParams = 0) ∧
    (get_movie_list sampleDb 3 2 sampleParams =
        Except.error ListingError.pageOutOfRange ↔
      (total_items sampleDb sampleParams ≠ 0 ∧
        3 > total_pages (total_items sampleDb sampleParams) 2)) ∧
    (3 > total_pages (total_items sampleDb sampleParams) 2 →
      ∀ r, get_movie_list sampleDb 3 2 sampleParams ≠ Except.ok r) :=
  movie_list_failures sampleDb 3 2 sampleParams (by decide) (by decide) (by decide)

/-- Claim C9: under the guards already passed (nonzero count, page within
range) the offset is strictly below the distinct total, the paged id query
is non-empty, and the handler returns the page: the post-pagination
"No movies found." safety branch is unreachable. -/
theorem movie_list_safety_unreachable (db : List Movie) (page pp : Nat)
    (p : MovieQueryParamsSchema)
    (hpage : 1 ≤ page) (hpp : 1 ≤ pp)
    (hnd : (db.map (fun m => m.id)).Nodup)
    (hti : total_items db p ≠ 0)
    (hle : page ≤ total_pages (total_items db p) pp) :
    (page - 1) * pp < total_items db p ∧
    pageIds db p page pp ≠ [] ∧
    get_movie_list db page pp p = Except.ok
      { movies := refetchMovies db (pageIds db p page pp)
        prev_page := if page > 1 then some (pageLink (page - 1) pp) else none
        next_page :=
          if page < total_pages (total_items db p) pp then
            some (pageLink (page + 1) pp)
          else none
        total_pages := total_pages (total_items db p) pp
        total_items := total_items db p } :=
  ⟨offset_lt_total hpp hti hle,
   pageIds_ne_nil p hnd hpp hti hle,
   (get_movie_list_ok_iff db page pp p _).mpr
     ⟨hti, hle, pageIds_ne_nil p hnd hpp hti hle, rfl⟩⟩

theorem movie_list_safety_unreachable_witness :
    (2 - 1) * 2 < total_items sampleDb sampleParams ∧
    pageIds sampleDb sampleParams 2 2 ≠ [] ∧
    get_movie_list sampleDb 2 2 sampleParams = Except.ok
      { movies := refetchMovies sampleDb (pageIds sampleDb sampleParams 2 2)
        prev_page := if 2 > 1 then some (pageLink (2 - 1) 2) else none
        next_page :=
          if 2 < total_pages (total_items sampleDb sampleParams) 2 then
            some (pageLink (2 + 1) 2)
          else none
        total_pages := total_pages (total_items sampleDb sampleParams) 2
        total_items := total_items sampleDb sampleParams } :=
  movie_list_safety_unreachable sampleDb 2 2 sampleParams
    (by decide) (by decide) (by decide) (by decide) (by decide)

/-! ### Claim theorems: page partition and ordering -/

theorem ok_movie_ids {db : List Movie} {page pp : Nat}
    {p : MovieQueryParamsSchema} {r : MovieListResponseSchema}
    (hok : get_movie_list db page pp p = Except.ok r) :
    r.movies.map (fun m => m.id) = pageIds db p page pp := by
  obtain ⟨-, -, -, rfl⟩ := (get_movie_list_ok_iff db page pp p r).mp hok
  exact refetch_map_id db (pageIds db p page pp) (pageIds_mem_db db p page pp)

theorem listedIds_eq_chunk {db : List Movie} {pp : Nat}
    {p : MovieQueryParamsSchema} (hpp : 1 ≤ pp)
    (hnd : (db.map (fun m => m.id)).Nodup) {k : Nat}
    (hk : k < total_pages (total_items db p) pp) :
    listedIds db (k + 1) pp p = ((sortedIds db p).drop (k * pp)).take pp := by
  have hti : total_items db p ≠ 0 := by
    intro h0
    rw [h0] at hk
    have hz : total_pages 0 pp = 0 := by
      unfold total_pages
      exact Nat.div_eq_of_lt (by omega)
    omega
  have hle : k + 1 ≤ total_pages (total_items db p) pp := hk
  have hok := (get_movie_list_ok_iff db (k + 1) pp p _).mpr
    ⟨hti, hle, pageIds_ne_nil p hnd hpp hti hle, rfl⟩
  calc listedIds db (k + 1) pp p
      = (refetchMovies db (pageIds db p (k + 1) pp)).map (fun m => m.id) := by
        simp only [listedIds, hok]
    _ = pageIds db p (k + 1) pp :=
        refetch_map_id db _ (pageIds_mem_db db p (k + 1) pp)
    _ = ((sortedIds db p).drop (k * pp)).take pp := by
        simp [pageIds]

/-- Claim C1: with fixed filters and sort, pages partition the filtered
distinct result set: distinct pages return disjoint id sets, and the
in-order concatenation of all pages is exactly the full filtered, distinct,
sorted id list. -/
theorem movie_list_pages_partition (db : List Movie) (pp : Nat)
    (p : MovieQueryParamsSchema)
    (hpp : 1 ≤ pp) (hnd : (db.map (fun m => m.id)).Nodup) :
    (∀ page₁ page₂ r₁ r₂, 1 ≤ page₁ → 1 ≤ page₂ → page₁ ≠ page₂ →
      get_movie_list db page₁ pp p = Except.ok r₁ →
      get_movie_list db page₂ pp p = Except.ok r₂ →
      ∀ i, i ∈ r₁.movies.map (fun m => m.id) →
        i ∉ r₂.movies.map (fun m => m.id)) ∧
    (List.range (total_pages (total_items db p) pp)).flatMap
      (fun k => listedIds db (k + 1) pp p) = sortedIds db p := by
  constructor
  · intro p₁ p₂ r₁ r₂ hp₁ hp₂ hne hok₁ hok₂ i hi₁ hi₂
    rw [ok_movie_ids hok₁] at hi₁
    rw [ok_movie_ids hok₂] at hi₂
    have hnd' := sortedIds_nodup p hnd
    rcases Nat.lt_or_ge (p₁ - 1) (p₂ - 1) with h | h
    · exact chunks_disjoint hnd' pp h i hi₁ hi₂
    · have h' : p₂ - 1 < p₁ - 1 := by omega
      exact chunks_disjoint hnd' pp h' i hi₂ hi₁
  · have hcong : (List.range (total_pages (total_items db p) pp)).flatMap
        (fun k => listedIds db (k + 1) pp p)
        = (List.range (total_pages (total_items db p) pp)).flatMap
          (fun k => ((sortedIds db p).drop (k * pp)).take pp) :=
      List.flatMap_congr
        (fun k hk => listedIds_eq_chunk hpp hnd (List.mem_range.mp hk))
    rw [hcong]
    apply chunks_concat
    rw [sortedIds_length p hnd]
    exact total_le_total_pages_mul hpp

theorem movie_list_pages_partition_witness :
    (List.range (total_pages (total_items sampleDb sampleParams) 2)).flatMap
      (fun k => listedIds sampleDb (k + 1) 2 sampleParams) =
      sortedIds sampleDb sampleParams :=
  (movie_list_pages_partition sampleDb 2 sampleParams (by decide) (by decide)).2

theorem clausesLe_refl : ∀ (L : List OrderClause) (a : Movie),
    clausesLe L a a = true
  | [], _ => rfl
  | cl :: rest, a => by
    have he : clauseEq cl a a = true := by
      cases cl <;> simp [clauseEq]
    simp [clausesLe, he, clausesLe_refl rest a]

theorem movieLe_refl (p : MovieQueryParamsSchema) (a : Movie) : movieLe p a a :=
  clausesLe_refl (order_clauses p) a

/-- Two sorted arrangements of the same rows coincide whenever ids are
unique: the id-descending tie-break fully determines the order. -/
theorem sorted_nodup_unique (p : MovieQueryParamsSchema) :
    ∀ (l₁ l₂ : List Movie), List.Perm l₁ l₂ →
      List.Sorted (movieLe p) l₁ → List.Sorted (movieLe p) l₂ →
      (l₁.map (fun m => m.id)).Nodup → l₁ = l₂
  | [], l₂, hperm, _, _, _ => (hperm.symm.eq_nil).symm
  | a :: t₁, [], hperm, _, _, _ => List.noConfusion hperm.eq_nil
  | a :: t₁, b :: t₂, hperm, hs₁, hs₂, hnd => by
    have hb₁ : b ∈ a :: t₁ := hperm.mem_iff.mpr (List.mem_cons_self b t₂)
    have ha₂ : a ∈ b :: t₂ := hperm.mem_iff.mp (List.mem_cons_self a t₁)
    have hab : movieLe p a b := by
      rcases List.mem_cons.mp hb₁ with h | h
      · rw [h]
        exact movieLe_refl p a
      · exact List.rel_of_sorted_cons hs₁ b h
    have hba : movieLe p b a := by
      rcases List.mem_cons.mp ha₂ with h | h
      · rw [h]
        exact movieLe_refl p b
      · exact List.rel_of_sorted_cons hs₂ a h
    have hid : a.id = b.id := movieLe_antisymm_id p a b hab hba
    have hbeq : b = a := by
      rcases List.mem_cons.mp hb₁ with h | h
      · exact h
      · exfalso
        have hmem : b.id ∈ t₁.map (fun m => m.id) := List.mem_map.mpr ⟨b, h, rfl⟩
        rw [← hid] at hmem
        exact (List.nodup_cons.mp hnd).1 hmem
    subst hbeq
    have hperm' : List.Perm t₁ t₂ := hperm.cons_inv
    have hrec := sorted_nodup_unique p t₁ t₂ hperm' hs₁.of_cons hs₂.of_cons
      (List.nodup_cons.mp hnd).2
    rw [hrec]

/-- Claim C5: an explicit sort column is applied first in the requested
direction, the id-descending tie-break is always appended after it, and the
resulting order is fully deterministic — any sorted arrangement of the
matching rows must equal the one the handler produces. -/
theorem movie_list_ordering (p : MovieQueryParamsSchema) :
    (∀ c, sort_columns p.sort_by = some c →
      order_clauses p = [OrderClause.col c p.sort_order, OrderClause.idDesc]) ∧
    (sort_columns p.sort_by = none →
      order_clauses p = [OrderClause.idDesc]) ∧
    (∀ ms : List Movie,
      List.Sorted (movieLe p) (sortMovies p ms) ∧
        List.Perm (sortMovies p ms) ms) ∧
    (∀ db l, (db.map (fun m => m.id)).Nodup →
      List.Perm l (matchingMovies db p) → List.Sorted (movieLe p) l →
      l = sortMovies p (matchingMovies db p)) := by
  refine ⟨?_, ?_, ?_, ?_⟩
  · intro c hc
    unfold order_clauses
    rw [hc]
    rfl
  · intro hc
    unfold order_clauses
    rw [hc]
    rfl
  · intro ms
    exact ⟨sortMovies_sorted p ms, sortMovies_perm p ms⟩
  · intro db l hnd hperm hsort
    apply sorted_nodup_unique p l (sortMovies p (matchingMovies db p))
      (hperm.trans (sortMovies_perm p _).symm) hsort (sortMovies_sorted p _)
    have h1 : ((matchingMovies db p).map (fun m => m.id)).Nodup :=
      nodup_matching_ids p hnd
    exact ((hperm.map (fun m => m.id)).nodup_iff).mpr h1

theorem movie_list_ordering_witness :
    order_clauses samplePriceParams =
      [OrderClause.col SortCol.price SortOrder.asc, OrderClause.idDesc] :=
  (movie_list_ordering samplePriceParams).1 SortCol.price (by decide)

/-! ### Generic lemmas about keyed singleton stores -/

theorem find?_of_filter_singleton {α : Type} (q : α → Bool) :
    ∀ (l : List α) (r : α), l.filter q = [r] → l.find? q = some r
  | [], r, h => by simp at h
  | x :: xs, r, h => by
    by_cases hx : q x = true
    · rw [List.filter_cons_of_pos hx] at h
      rw [List.find?_cons_of_pos _ hx]
      exact congrArg some (List.head_eq_of_cons_eq h)
    · rw [List.filter_cons_of_neg (by simpa using hx)] at h
      rw [List.find?_cons_of_neg _ (by simpa using hx)]
      exact find?_of_filter_singleton q xs r h

theorem filter_eraseP_singleton {α : Type} (q : α → Bool) :
    ∀ (l : List α) (r : α), l.filter q = [r] → (l.eraseP q).filter q = []
  | [], r, h => by simp at h
  | x :: xs, r, h => by
    by_cases hx : q x = true
    · rw [List.filter_cons_of_pos hx] at h
      rw [List.eraseP_cons_of_pos hx]
      exact List.tail_eq_of_cons_eq h
    · rw [List.filter_cons_of_neg (by simpa using hx)] at h
      rw [List.eraseP_cons_of_neg (by simpa using hx),
        List.filter_cons_of_neg (by simpa using hx)]
      exact filter_eraseP_singleton q xs r h

theorem filter_not_eraseP {α : Type} (q : α → Bool) :
    ∀ l : List α,
      (l.eraseP q).filter (fun x => !(q x)) = l.filter (fun x => !(q x))
  | [] => rfl
  | x :: xs => by
    by_cases hx : q x = true
    · rw [List.eraseP_cons_of_pos hx,
        List.filter_cons_of_neg (by simp [hx])]
    · have hx' : q x = false := by
        simpa using hx
      rw [List.eraseP_cons_of_neg (by simpa using hx),
        List.filter_cons_of_pos (by simp [hx']),
        List.filter_cons_of_pos (by simp [hx'])]
      rw [filter_not_eraseP q xs]

theorem filter_updateFirst {α : Type} (q : α → Bool) (f : α → α)
    (hf : ∀ x, q x = true → q (f x) = true) :
    ∀ (l : List α) (r : α), l.filter q = [r] →
      (updateFirst q f l).filter q = [f r]
  | [], r, h => by simp at h
  | x :: xs, r, h => by
    by_cases hx : q x = true
    · rw [List.filter_cons_of_pos hx] at h
      unfold updateFirst
      rw [if_pos hx, List.filter_cons_of_pos (hf x hx),
        List.tail_eq_of_cons_eq h, List.head_eq_of_cons_eq h]
    · rw [List.filter_cons_of_neg (by simpa using hx)] at h
      unfold updateFirst
      rw [if_neg (by simpa using hx),
        List.filter_cons_of_neg (by simpa using hx)]
      exact filter_updateFirst q f hf xs r h

theorem filter_not_updateFirst {α : Type} (q : α → Bool) (f : α → α)
    (hf : ∀ x, q x = true → q (f x) = true) :
    ∀ l : List α,
      (updateFirst q f l).filter (fun x => !(q x)) =
        l.filter (fun x => !(q x))
  | [] => rfl
  | x :: xs => by
    by_cases hx : q x = true
    · unfold updateFirst
      rw [if_pos hx, List.filter_cons_of_neg (by simp [hf x hx]),
        List.filter_cons_of_neg (by simp [hx])]
    · unfold updateFirst
      rw [if_neg (by simpa using hx),
        List.filter_cons_of_pos (by simp [hx]),
        List.filter_cons_of_pos (by simp [hx])]
      rw [filter_not_updateFirst q f hf xs]

/-! ### Toggle equations -/

theorem ratingKey_new (uid mid v : Nat) :
    ratingKey uid mid { user_id := uid, movie_id := mid, rating := v } = true := by
  simp [ratingKey]

theorem ratingKey_fields {uid mid : Nat} {r : RatingRow}
    (h : ratingKey uid mid r = true) : r.user_id = uid ∧ r.movie_id = mid := by
  simp only [ratingKey, Bool.and_eq_true, beq_iff_eq] at h
  exact ⟨h.2, h.1⟩

theorem find?_none_of_filter_nil {α : Type} (q : α → Bool) (l : List α)
    (h : l.filter q = []) : l.find? q = none :=
  List.find?_eq_none.mpr (fun x hx => List.filter_eq_nil_iff.mp h x hx)

theorem toggle_rating_eq_create (store : List RatingRow) (uid mid v : Nat)
    (hv : validRating v = true)
    (hfind : store.find? (ratingKey uid mid) = none) :
    toggle_rating store uid mid v = Except.ok
      { store := store ++ [{ user_id := uid, movie_id := mid, rating := v }]
        value := some v
        detail := "You gave this movie " ++ toString v } := by
  unfold toggle_rating
  rw [if_neg (by simp [hv]), hfind]

theorem toggle_rating_eq_delete (store : List RatingRow) (uid mid v : Nat)
    (hv : validRating v = true) (r : RatingRow)
    (hfind : store.find? (ratingKey uid mid) = some r) (hr : r.rating = v) :
    toggle_rating store uid mid v = Except.ok
      { store := store.eraseP (ratingKey uid mid)
        value := none
        detail := "Your rating was removed" } := by
  unfold toggle_rating
  rw [if_neg (by simp [hv]), hfind]
  simp [hr]

theorem toggle_rating_eq_update (store : List RatingRow) (uid mid v : Nat)
    (hv : validRating v = true) (r : RatingRow)
    (hfind : store.find? (ratingKey uid mid) = some r) (hr : ¬ r.rating = v) :
    toggle_rating store uid mid v = Except.ok
      { store := updateFirst (ratingKey uid mid)
          (fun x => { x with rating := v }) store
        value := some v
        detail := "You gave this movie " ++ toString v } := by
  unfold toggle_rating
  rw [if_neg (by simp [hv]), hfind]
  simp [hr]

theorem reactionKey_new (uid mid : Nat) (a : Reaction) :
    reactionKey uid mid { user_id := uid, movie_id := mid, reaction := a } = true := by
  simp [reactionKey]

theorem reactionKey_fields {uid mid : Nat} {r : ReactionRow}
    (h : reactionKey uid mid r = true) : r.user_id = uid ∧ r.movie_id = mid := by
  simp only [reactionKey, Bool.and_eq_true, beq_iff_eq] at h
  exact ⟨h.2, h.1⟩

theorem toggle_reaction_eq_create (rs : List ReactionRow) (uid mid : Nat)
    (a : Reaction) (hfind : rs.find? (reactionKey uid mid) = none) :
    toggle_reaction rs uid mid a = Except.ok
      { store := rs ++ [{ user_id := uid, movie_id := mid, reaction := a }]
        value := some a
        detail := "You " ++ reactionName a ++ "d this movie" } := by
  unfold toggle_reaction
  rw [hfind]

theorem toggle_reaction_eq_delete (rs : List ReactionRow) (uid mid : Nat)
    (a : Reaction) (r : ReactionRow)
    (hfind : rs.find? (reactionKey uid mid) = some r) (hr : r.reaction = a) :
    toggle_reaction rs uid mid a = Except.ok
      { store := rs.eraseP (reactionKey uid mid)
        value := none
        detail := "Your reaction was removed" } := by
  unfold toggle_reaction
  rw [hfind]
  simp [hr]

theorem toggle_reaction_eq_update (rs : List ReactionRow) (uid mid : Nat)
    (a : Reaction) (r : ReactionRow)
    (hfind : rs.find? (reactionKey uid mid) = some r) (hr : ¬ r.reaction = a) :
    toggle_reaction rs uid mid a = Except.ok
      { store := updateFirst (reactionKey uid mid)
          (fun x => { x with reaction := a }) rs
        value := some a
        detail := "You " ++ reactionName a ++ "d this movie" } := by
  unfold toggle_reaction
  rw [hfind]
  simp [hr]

/-- Claim C7: rating and reaction submission is a three-way toggle keyed by
the (user, movie) pair — absent creates, identical deletes, different
overwrites — rows under other keys are untouched; consequently, from no
stored rating, the same value twice leaves nothing stored, while value `v`
then `w ≠ v` leaves exactly one row holding `w`. -/
theorem toggle_three_way (store : List RatingRow) (rs : List ReactionRow)
    (uid mid v w : Nat) (a : Reaction)
    (hv : validRating v = true) (hw : validRating w = true) :
    (store.filter (ratingKey uid mid) = [] →
      ∀ res, toggle_rating store uid mid v = Except.ok res →
        res.store.filter (ratingKey uid mid) =
          [{ user_id := uid, movie_id := mid, rating := v }] ∧
        res.value = some v ∧
        res.store.filter (fun x => !(ratingKey uid mid x)) =
          store.filter (fun x => !(ratingKey uid mid x))) ∧
    (∀ r, store.filter (ratingKey uid mid) = [r] → r.rating = v →
      ∀ res, toggle_rating store uid mid v = Except.ok res →
        res.store.filter (ratingKey uid mid) = [] ∧
        res.value = none ∧
        res.store.filter (fun x => !(ratingKey uid mid x)) =
          store.filter (fun x => !(ratingKey uid mid x))) ∧
    (∀ r, store.filter (ratingKey uid mid) = [r] → r.rating ≠ v →
      ∀ res, toggle_rating store uid mid v = Except.ok res →
        res.store.filter (ratingKey uid mid) =
          [{ user_id := uid, movie_id := mid, rating := v }] ∧
        res.value = some v ∧
        res.store.filter (fun x => !(ratingKey uid mid x)) =
          store.filter (fun x => !(ratingKey uid mid x))) ∧
    ((toggle_rating store uid mid v).isOk = true) ∧
    (store.filter (ratingKey uid mid) = [] →
      ∀ res₁ res₂, toggle_rating store uid mid v = Except.ok res₁ →
        toggle_rating res₁.store uid mid v = Except.ok res₂ →
        res₂.store.filter (ratingKey uid mid) = []) ∧
    (v ≠ w → store.filter (ratingKey uid mid) = [] →
      ∀ res₁ res₂, toggle_rating store uid mid v = Except.ok res₁ →
        toggle_rating res₁.store uid mid w = Except.ok res₂ →
        res₂.store.filter (ratingKey uid mid) =
          [{ user_id := uid, movie_id := mid, rating := w }]) ∧
    (rs.filter (reactionKey uid mid) = [] →
      ∀ res, toggle_reaction rs uid mid a = Except.ok res →
        res.store.filter (reactionKey uid mid) =
          [{ user_id := uid, movie_id := mid, reaction := a }] ∧
        res.value = some a) ∧
    (∀ r, rs.filter (reactionKey uid mid) = [r] → r.reaction = a →
      ∀ res, toggle_reaction rs uid mid a = Except.ok res →
        res.store.filter (reactionKey uid mid) = [] ∧ res.value = none) ∧
    (∀ r, rs.filter (reactionKey uid mid) = [r] → r.reaction ≠ a →
      ∀ res, toggle_reaction rs uid mid a = Except.ok res →
        res.store.filter (reactionKey uid mid) =
          [{ user_id := uid, movie_id := mid, reaction := a }] ∧
        res.value = some a) := by
  have hfnew : ∀ u : Nat,
      (([{ user_id := uid, movie_id := mid, rating := u }] :
        List RatingRow)).filter (ratingKey uid mid) =
        [{ user_id := uid, movie_id := mid, rating := u }] := by
    intro u
    rw [List.filter_cons_of_pos (ratingKey_new uid mid u)]
    rfl
  have hfnewneg : ∀ u : Nat,
      (([{ user_id := uid, movie_id := mid, rating := u }] :
        List RatingRow)).filter (fun x => !(ratingKey uid mid x)) = [] := by
    intro u
    rw [List.filter_cons_of_neg (by simp [ratingKey_new])]
    rfl
  have hfR : ∀ x : RatingRow, ratingKey uid mid x = true →
      ratingKey uid mid { x with rating := v } = true := by
    intro x hx
    simpa [ratingKey] using hx
  refine ⟨?_, ?_, ?_, ?_, ?_, ?_, ?_, ?_, ?_⟩
  · intro habs res hres
    rw [toggle_rating_eq_create store uid mid v hv
      (find?_none_of_filter_nil _ _ habs)] at hres
    obtain rfl := Except.ok.inj hres
    refine ⟨?_, rfl, ?_⟩
    · rw [List.filter_append, habs, hfnew]
      rfl
    · rw [List.filter_append, hfnewneg, List.append_nil]
  · intro r hfil hr res hres
    rw [toggle_rating_eq_delete store uid mid v hv r
      (find?_of_filter_singleton _ store r hfil) hr] at hres
    obtain rfl := Except.ok.inj hres
    exact ⟨filter_eraseP_singleton _ store r hfil, rfl, filter_not_eraseP _ store⟩
  · intro r hfil hr res hres
    rw [toggle_rating_eq_update store uid mid v hv r
      (find?_of_filter_singleton _ store r hfil) hr] at hres
    obtain rfl := Except.ok.inj hres
    have hmem : r ∈ store.filter (ratingKey uid mid) := by
      rw [hfil]
      exact List.mem_singleton_self r
    have hkey : ratingKey uid mid r = true := (List.mem_filter.mp hmem).2
    obtain ⟨hu, hm⟩ := ratingKey_fields hkey
    have hfr : ({ r with rating := v } : RatingRow) =
        { user_id := uid, movie_id := mid, rating := v } := by
      cases r
      simp_all
    refine ⟨?_, rfl, filter_not_updateFirst _ _ hfR store⟩
    rw [filter_updateFirst _ _ hfR store r hfil, hfr]
  · cases hfind : store.find? (ratingKey uid mid) with
    | none =>
      rw [toggle_rating_eq_create store uid mid v hv hfind]
      rfl
    | some r =>
      by_cases hr : r.rating = v
      · rw [toggle_rating_eq_delete store uid mid v hv r hfind hr]
        rfl
      · rw [toggle_rating_eq_update store uid mid v hv r hfind hr]
        rfl
  · intro habs res₁ res₂ h₁ h₂
    rw [toggle_rating_eq_create store uid mid v hv
      (find?_none_of_filter_nil _ _ habs)] at h₁
    obtain rfl := Except.ok.inj h₁
    have hfil₂ : (store ++
        [({ user_id := uid, movie_id := mid, rating := v } : RatingRow)]).filter
          (ratingKey uid mid) =
        [{ user_id := uid, movie_id := mid, rating := v }] := by
      rw [List.filter_append, habs, hfnew]
      rfl
    rw [toggle_rating_eq_delete _ uid mid v hv _
      (find?_of_filter_singleton _ _ _ hfil₂) rfl] at h₂
    obtain rfl := Except.ok.inj h₂
    exact filter_eraseP_singleton _ _ _ hfil₂
  · intro hvw habs res₁ res₂ h₁ h₂
    rw [toggle_rating_eq_create store uid mid v hv
      (find?_none_of_filter_nil _ _ habs)] at h₁
    obtain rfl := Except.ok.inj h₁
    have hfil₂ : (store ++
        [({ user_id := uid, movie_id := mid, rating := v } : RatingRow)]).filter
          (ratingKey uid mid) =
        [{ user_id := uid, movie_id := mid, rating := v }] := by
      rw [List.filter_append, habs, hfnew]
      rfl
    have hfW : ∀ x : RatingRow, ratingKey uid mid x = true →
        ratingKey uid mid { x with rating := w } = true := by
      intro x hx
      simpa [ratingKey] using hx
    rw [toggle_rating_eq_update _ uid mid w hw _
      (find?_of_filter_singleton _ _ _ hfil₂) (by simpa using hvw)] at h₂
    obtain rfl := Except.ok.inj h₂
    rw [filter_updateFirst _ _ hfW _ _ hfil₂]
  · intro habs res hres
    rw [toggle_reaction_eq_create rs uid mid a
      (find?_none_of_filter_nil _ _ habs)] at hres
    obtain rfl := Except.ok.inj hres
    refine ⟨?_, rfl⟩
    rw [List.filter_append, habs,
      List.filter_cons_of_pos (reactionKey_new uid mid a)]
    rfl
  · intro r hfil hr res hres
    rw [toggle_reaction_eq_delete rs uid mid a r
      (find?_of_filter_singleton _ rs r hfil) hr] at hres
    obtain rfl := Except.ok.inj hres
    exact ⟨filter_eraseP_singleton _ rs r hfil, rfl⟩
  · intro r hfil hr res hres
    rw [toggle_reaction_eq_update rs uid mid a r
      (find?_of_filter_singleton _ rs r hfil) hr] at hres
    obtain rfl := Except.ok.inj hres
    have hmem : r ∈ rs.filter (reactionKey uid mid) := by
      rw [hfil]
      exact List.mem_singleton_self r
    have hkey : reactionKey uid mid r = true := (List.mem_filter.mp hmem).2
    obtain ⟨hu, hm⟩ := reactionKey_fields hkey
    have hfA : ∀ x : ReactionRow, reactionKey uid mid x = true →
        reactionKey uid mid { x with reaction := a } = true := by
      intro x hx
      simpa [reactionKey] using hx
    have hfr : ({ r with reaction := a } : ReactionRow) =
        { user_id := uid, movie_id := mid, reaction := a } := by
      cases r
      simp_all
    refine ⟨?_, rfl⟩
    rw [filter_updateFirst _ _ hfA rs r hfil, hfr]

theorem toggle_three_way_witness :
    (toggle_rating [] 1 2 5).isOk = true :=
  (toggle_three_way [] [] 1 2 5 7 Reaction.like (by decide)
    (by decide)).2.2.2.1

/-! ### Claim theorems: creation uniqueness and partial update -/

/-- Claim C8: creation succeeds when no movie shares the submitted
(name, year), preserving the (name, year, duration) uniqueness invariant;
a conflicting (name, year) is rejected with the 409 message naming the movie
and year, producing no new store; creating the same (name, year) twice
succeeds then fails. -/
theorem create_movie_uniqueness (db : List Movie) (nid : Nat)
    (d : MovieCreateSchema) :
    ((∀ m ∈ db, ¬(m.name = d.name ∧ m.year = d.year)) →
      create_movie db nid d = Except.ok (db ++ [mkMovie nid d]) ∧
      ((db.map (fun m => (m.name, m.year, m.duration))).Nodup →
        ((db ++ [mkMovie nid d]).map
          (fun m => (m.name, m.year, m.duration))).Nodup)) ∧
    ((∃ m ∈ db, m.name = d.name ∧ m.year = d.year) →
      create_movie db nid d =
        Except.error (duplicateMovieDetail d.name d.year) ∧
      ∀ db', create_movie db nid d ≠ Except.ok db') ∧
    ((∀ m ∈ db, ¬(m.name = d.name ∧ m.year = d.year)) →
      ∀ nid₂ d₂, d₂.name = d.name → d₂.year = d.year →
        create_movie (db ++ [mkMovie nid d]) nid₂ d₂ =
          Except.error (duplicateMovieDetail d₂.name d₂.year)) := by
  refine ⟨?_, ?_, ?_⟩
  · intro h
    have hnone : conflictingMovie db d.name d.year = none := by
      apply List.find?_eq_none.mpr
      intro m hm
      simpa using h m hm
    constructor
    · unfold create_movie
      rw [hnone]
    · intro hnd
      rw [List.map_append]
      refine List.nodup_append.mpr ⟨hnd, List.nodup_singleton _, ?_⟩
      intro x hx hx'
      obtain ⟨m, hm, hfm⟩ := List.mem_map.mp hx
      simp only [List.map_cons, List.map_nil, List.mem_singleton] at hx'
      rw [hx'] at hfm
      have hname : m.name = d.name := congrArg Prod.fst hfm
      have hyear : m.year = d.year := congrArg Prod.fst (congrArg Prod.snd hfm)
      exact h m hm ⟨hname, hyear⟩
  · rintro ⟨m, hm, hname, hyear⟩
    have hsome : (conflictingMovie db d.name d.year).isSome := by
      apply List.find?_isSome.mpr
      exact ⟨m, hm, by simp [hname, hyear]⟩
    obtain ⟨m', hm'⟩ := Option.isSome_iff_exists.mp hsome
    constructor
    · unfold create_movie
      rw [hm']
    · intro db' hok
      unfold create_movie at hok
      rw [hm'] at hok
      exact Except.noConfusion hok
  · intro h nid₂ d₂ hn hy
    have hnone : conflictingMovie db d₂.name d₂.year = none := by
      apply List.find?_eq_none.mpr
      intro m hm
      rw [hn, hy]
      simpa using h m hm
    have hfind : List.find?
        (fun m : Movie => m.name == d₂.name && m.year == d₂.year)
        [mkMovie nid d] = some (mkMovie nid d) := by
      simp [List.find?_cons, mkMovie, hn, hy]
    unfold create_movie
    unfold conflictingMovie
    rw [List.find?_append]
    unfold conflictingMovie at hnone
    rw [hnone]
    simp only [Option.none_or]
    rw [hfind]

theorem create_movie_uniqueness_witness :
    create_movie sampleDb 4 sampleCreate =
      Except.error (duplicateMovieDetail sampleCreate.name sampleCreate.year) :=
  ((create_movie_uniqueness sampleDb 4 sampleCreate).2.1
    ⟨mkSample 1 "Alpha" 2020 5 ["Tom Hanks"] ["Jane Doe"],
      by decide, by decide, by decide⟩).1

theorem updateFirst_eq_map {db : List Movie} (mid : Nat) (f : Movie → Movie)
    (hnd : (db.map (fun m => m.id)).Nodup) :
    updateFirst (fun m => m.id == mid) f db =
      db.map (fun m => if m.id = mid then f m else m) := by
  induction db with
  | nil => rfl
  | cons x xs ih =>
    rw [List.map_cons] at hnd
    obtain ⟨hx, hxs⟩ := List.nodup_cons.mp hnd
    unfold updateFirst
    by_cases hid : x.id = mid
    · rw [if_pos (by simpa using hid)]
      simp only [List.map_cons, if_pos hid]
      congr 1
      have hcong : ∀ m ∈ xs, (if m.id = mid then f m else m) = m := by
        intro m hm
        rw [if_neg]
        intro hmm
        exact hx (List.mem_map.mpr ⟨m, hm, by rw [hmm, hid]⟩)
      rw [List.map_congr_left hcong, List.map_id']
    · rw [if_neg (by simpa using hid)]
      simp only [List.map_cons, if_neg hid]
      congr 1
      exact ih hxs

/-- Claim C10: the PATCH handler rewrites only the addressed movie, the
update touches only the five updatable fields (and only when provided), and
every other movie row is untouched. -/
theorem update_movie_frame (db : List Movie) (mid : Nat)
    (u : MovieUpdateSchema) (db' : List Movie)
    (hnd : (db.map (fun m => m.id)).Nodup)
    (hok : update_movie db mid u = Except.ok db') :
    db' = db.map (fun m => if m.id = mid then applyUpdate u m else m) ∧
    (∀ m : Movie,
      (applyUpdate u m).id = m.id ∧
      (applyUpdate u m).uuid = m.uuid ∧
      (applyUpdate u m).duration = m.duration ∧
      (applyUpdate u m).imdb = m.imdb ∧
      (applyUpdate u m).imdb_votes = m.imdb_votes ∧
      (applyUpdate u m).certification = m.certification ∧
      (applyUpdate u m).price = m.price ∧
      (applyUpdate u m).country = m.country ∧
      (applyUpdate u m).genres = m.genres ∧
      (applyUpdate u m).actors = m.actors ∧
      (applyUpdate u m).directors = m.directors ∧
      (applyUpdate u m).languages = m.languages) ∧
    (∀ m : Movie,
      (u.name = none → (applyUpdate u m).name = m.name) ∧
      (u.year = none → (applyUpdate u m).year = m.year) ∧
      (u.description = none → (applyUpdate u m).description = m.description) ∧
      (u.budget = none → (applyUpdate u m).budget = m.budget) ∧
      (u.revenue = none → (applyUpdate u m).revenue = m.revenue) ∧
      (∀ s, u.name = some s → (applyUpdate u m).name = s) ∧
      (∀ y, u.year = some y → (applyUpdate u m).year = y) ∧
      (∀ s, u.description = some s → (applyUpdate u m).description = s) ∧
      (∀ b, u.budget = some b → (applyUpdate u m).budget = b) ∧
      (∀ rv, u.revenue = some rv → (applyUpdate u m).revenue = rv)) ∧
    (∀ m ∈ db, m.id ≠ mid → m ∈ db') := by
  have hdb' : db' =
      db.map (fun m => if m.id = mid then applyUpdate u m else m) := by
    unfold update_movie at hok
    cases hfind : db.find? (fun m => m.id == mid) with
    | none =>
      rw [hfind] at hok
      exact Except.noConfusion hok
    | some m0 =>
      rw [hfind] at hok
      have heq := Except.ok.inj hok
      rw [← heq, updateFirst_eq_map mid _ hnd]
  refine ⟨hdb', ?_, ?_, ?_⟩
  · intro m
    exact ⟨rfl, rfl, rfl, rfl, rfl, rfl, rfl, rfl, rfl, rfl, rfl, rfl⟩
  · intro m
    refine ⟨?_, ?_, ?_, ?_, ?_, ?_, ?_, ?_, ?_, ?_⟩ <;>
      first
        | (intro h; simp [applyUpdate, h])
        | (intro s h; simp [applyUpdate, h])
  · intro m hm hne
    rw [hdb']
    refine List.mem_map.mpr ⟨m, hm, ?_⟩
    rw [if_neg hne]

theorem update_movie_frame_witness :
    sampleUpdatedDb = sampleDb.map
      (fun m => if m.id = 1 then applyUpdate sampleUpdate m else m) :=
  (update_movie_frame sampleDb 1 sampleUpdate sampleUpdatedDb
    (by decide) (by rfl)).1

/-! ### Claim theorems: the sort specification (corrected) -/

/-- Claim C6 counterexample: the schema also accepts `sort_by = "name"`
(its default), which is outside {price, budget, duration} and maps to no
sort column, so the claim as stated fails at the input `"name"`. -/
theorem sort_by_name_counterexample :
    parse_sort_by "name" = some SortBy.name ∧
    ¬("name" = "price" ∨ "name" = "budget" ∨ "name" = "duration") ∧
    sort_columns SortBy.name = none := by
  refine ⟨by rfl, by decide, rfl⟩

/-- Claim C6 (amended): the schema accepts exactly
`sort_by ∈ {name, price, budget, duration}` (default "name") and
`sort_order ∈ {asc, desc}`; each of price/budget/duration maps to a sort
column applied ahead of the id-descending tie-break, while "name" maps to
no sort column and leaves only the default ordering. -/
theorem sort_spec_amended :
    (∀ s, (parse_sort_by s).isSome = true ↔
      (s = "name" ∨ s = "price" ∨ s = "budget" ∨ s = "duration")) ∧
    (∀ s, (parse_sort_order s).isSome = true ↔ (s = "asc" ∨ s = "desc")) ∧
    (∀ p : MovieQueryParamsSchema, p.sort_by ≠ SortBy.name →
      ∃ c, sort_columns p.sort_by = some c ∧
        order_clauses p = [OrderClause.col c p.sort_order, OrderClause.idDesc]) ∧
    (∀ p : MovieQueryParamsSchema, p.sort_by = SortBy.name →
      sort_columns p.sort_by = none ∧ order_clauses p = [OrderClause.idDesc]) := by
  refine ⟨?_, ?_, ?_, ?_⟩
  · intro s
    unfold parse_sort_by
    split_ifs with h1 h2 h3 h4 <;> simp_all
  · intro s
    unfold parse_sort_order
    split_ifs with h1 h2 <;> simp_all
  · intro p hp
    cases hb : p.sort_by with
    | name => exact absurd hb hp
    | price =>
      refine ⟨SortCol.price, rfl, ?_⟩
      unfold order_clauses
      rw [hb]
      rfl
    | budget =>
      refine ⟨SortCol.budget, rfl, ?_⟩
      unfold order_clauses
      rw [hb]
      rfl
    | duration =>
      refine ⟨SortCol.duration, rfl, ?_⟩
      unfold order_clauses
      rw [hb]
      rfl
  · intro p hp
    constructor
    · rw [hp]
      rfl
    · unfold order_clauses
      rw [hp]
      rfl

theorem sort_spec_amended_witness :
    sort_columns sampleParams.sort_by = none ∧
    order_clauses sampleParams = [OrderClause.idDesc] :=
  sort_spec_amended.2.2.2 sampleParams (by rfl)

end Cinema
